import Mathlib

/-!
Verification development for the traktorbox repository
(src/traktorbox/parse_export_pdb.py, src/traktorbox/export_to_traktor.py).

Shallow embedding conventions:
* a Python `bytes` buffer is a `List Nat` (each element a byte value);
* Python slicing `data[a:b]` (which clamps out-of-range bounds) is `pySlice`;
* `struct.unpack` calls are modelled by explicit bounds guards (a short slice
  makes `struct.unpack` raise, modelled as `Option.none`) followed by
  fixed-width little or big endian reads;
* a Python exception (assert failure, KeyError, StopIteration, struct.error,
  UnicodeDecodeError) makes the modelled function return `none` (or an
  explicit error value where termination must be distinguished from failure);
* decoded text is kept at the byte/code-unit level: the string codec returns
  the raw payload bytes together with the encoding selected by the code.
  Code-point level concerns of the Python codecs (ASCII/UTF-8 validity,
  UTF-16 surrogate validity) are not modelled; UTF-16 byte-order marks and
  the even-length requirement of the UTF-16 codecs are modelled.
-/

namespace Traktorbox

/-- Python slice `data[a:b]` for `0 ≤ a, b`: clamps both ends, empty when `b ≤ a`. -/
def pySlice (data : List Nat) (a b : Nat) : List Nat :=
  (data.drop a).take (b - a)

/-- Byte read `data[i]`, defaulting to 0 out of range (all uses are guarded). -/
def u8 (data : List Nat) (i : Nat) : Nat :=
  data.getD i 0

/-- Little-endian 16-bit read at offset `i` (PDB side, struct format `H`). -/
def u16LE (data : List Nat) (i : Nat) : Nat :=
  u8 data i + 256 * u8 data (i + 1)

/-- Little-endian 32-bit read at offset `i` (PDB side, struct format `I`). -/
def u32LE (data : List Nat) (i : Nat) : Nat :=
  u8 data i + 256 * u8 data (i + 1) + 65536 * u8 data (i + 2) + 16777216 * u8 data (i + 3)

/-- Big-endian 16-bit read at offset `i` (ANLZ side, struct format `>H`). -/
def u16BE (data : List Nat) (i : Nat) : Nat :=
  256 * u8 data i + u8 data (i + 1)

/-- Big-endian 32-bit read at offset `i` (ANLZ side, struct format `>I`). -/
def u32BE (data : List Nat) (i : Nat) : Nat :=
  16777216 * u8 data i + 65536 * u8 data (i + 1) + 256 * u8 data (i + 2) + u8 data (i + 3)

/-- The encoding selected by `string_from_bytes` for a PDB string payload. -/
inductive StrEncoding where
  | shortAscii
  | utf16
  | utf8
  | ascii
deriving DecidableEq, Repr

/-- A decoded PDB string: the encoding the code selected and the raw payload
bytes it passed to Python's `str(…, encoding)`. -/
structure PdbString where
  enc : StrEncoding
  payload : List Nat
deriving DecidableEq, Repr

instance : Inhabited PdbString := ⟨⟨StrEncoding.shortAscii, []⟩⟩

/-- Embedding of `string_from_bytes` (parse_export_pdb.py lines 12-26).
`none` models the Python exceptions of `struct.unpack` on a short slice. -/
def string_from_bytes (data : List Nat) (offset : Nat) : Option PdbString :=
  if offset + 1 ≤ data.length then
    let meta := u8 data offset
    if meta &&& (1 <<< 0) ≠ 0 then
      let str_len := meta >>> 1
      some ⟨StrEncoding.shortAscii, pySlice data (offset + 1) (offset + str_len)⟩
    else
      if offset + 3 ≤ data.length then
        let str_len := u16LE data (offset + 1)
        let enc : StrEncoding :=
          if u8 data offset &&& (1 <<< 4) ≠ 0 then StrEncoding.utf16
          else if u8 data offset &&& (1 <<< 5) ≠ 0 then StrEncoding.utf8
          else StrEncoding.ascii
        some ⟨enc, pySlice data (offset + 4) (offset + str_len)⟩
      else none
  else none

/-- Little-endian pairing of bytes into UTF-16 code units; `none` models the
`UnicodeDecodeError` Python raises on an odd byte count. -/
def utf16PairsLE : List Nat → Option (List Nat)
  | [] => some []
  | [_] => none
  | a :: b :: rest => (utf16PairsLE rest).map fun us => (a + 256 * b) :: us

/-- Big-endian pairing of bytes into UTF-16 code units. -/
def utf16PairsBE : List Nat → Option (List Nat)
  | [] => some []
  | [_] => none
  | a :: b :: rest => (utf16PairsBE rest).map fun us => (256 * a + b) :: us

/-- Code-unit level model of Python's `str(bs, 'utf-16')`: a leading BOM is
consumed and selects the byte order, otherwise little-endian is used. -/
def utf16Decode (bs : List Nat) : Option (List Nat) :=
  match bs with
  | b0 :: b1 :: rest =>
    if b0 = 255 ∧ b1 = 254 then utf16PairsLE rest
    else if b0 = 254 ∧ b1 = 255 then utf16PairsBE rest
    else utf16PairsLE (b0 :: b1 :: rest)
  | _ => utf16PairsLE bs

/-- Effective row count of a PDB page (parse_export_pdb.py line 496):
`num_rows_l if num_rows_l > num_rows_s and num_rows_l != 0x1fff else num_rows_s`. -/
def effectiveRowCount (num_rows_s num_rows_l : Nat) : Nat :=
  if num_rows_s < num_rows_l ∧ num_rows_l ≠ 0x1fff then num_rows_l else num_rows_s

/-- The 18 little-endian 16-bit words of a 36-byte row-slot block
(`struct.unpack('H' * 18, page_data[pos:pos + 36])`, lines 499-502);
`none` models `struct.error` on a short slice. -/
def slotBlock (page_data : List Nat) (pos : Nat) : Option (List Nat) :=
  if pos + 36 ≤ page_data.length then
    some ((List.range 18).map fun k => u16LE page_data (pos + 2 * k))
  else none

/-- The row-address loop body of lines 506-511: enumerate the 16 row offsets
with index `i`, skip the row when `row_mask & (1 << i) == 0`, otherwise
record row address `40 + row_offset` (`num_bytes_table_page + row_offset`). -/
def groupRowsAux (row_mask : Nat) : List Nat → Nat → List Nat
  | [], _ => []
  | row_offset :: rest, i =>
    if row_mask &&& (1 <<< i) = 0 then groupRowsAux row_mask rest (i + 1)
    else (40 + row_offset) :: groupRowsAux row_mask rest (i + 1)

/-- One slot group of the page walker (lines 498-511): the 36-byte block at
`len_page - g*36 - 36` read as 18 words; reversed, index 1 is the row mask
and indices 2.. are the row offsets. -/
def slotGroupRows (page_data : List Nat) (len_page g : Nat) : Option (List Nat) :=
  (slotBlock page_data (len_page - g * 36 - 36)).map fun ws =>
    let rev := ws.reverse
    groupRowsAux (rev.getD 1 0) (rev.drop 2) 0

/-- Helper recursion over the slot groups `g, g+1, …` of a page. -/
def groupsFrom (page_data : List Nat) (len_page : Nat) : Nat → Nat → Option (List Nat)
  | 0, _ => some []
  | n + 1, g =>
    match slotGroupRows page_data len_page g with
    | none => none
    | some rs => (groupsFrom page_data len_page n (g + 1)).map (rs ++ ·)

/-- All decoded row addresses of one page: the loop
`for rows in range(0, num_rows, 16)` visits groups `0 … ⌈num_rows/16⌉ - 1`. -/
def pageRowPositions (page_data : List Nat) (len_page num_rows : Nat) : Option (List Nat) :=
  groupsFrom page_data len_page ((num_rows + 15) / 16) 0

/-- Modelled from the spec and claim C2 wording (not from the code): word 16
of the unreversed block is the presence mask ("reversed, word 1"), row `i`
is present iff bit `i` of the mask is set, its offset is unreversed word
`15 - i` ("reversed, words 2..17"), and the row address is `40 + offset`. -/
def specGroupRows (ws : List Nat) : List Nat :=
  (List.range 16).filterMap fun i =>
    if (ws.getD 16 0).testBit i then some (40 + ws.getD (15 - i) 0) else none

/-- Beat record of the `PQTZ` beat grid. The source stores `tempo / 100` as a
Python float; the model keeps the raw on-disk integer `tempo_x100`. -/
structure Beat where
  num : Nat
  tempo_x100 : Nat
  time_in_ms : Nat
deriving DecidableEq, Repr

/-- Embedding of `Beat.from_bytes` (`struct.unpack('>HHI', …)`, lines 165-169). -/
def Beat.from_bytes (data : List Nat) (row_offset : Nat) : Option Beat :=
  if row_offset + 8 ≤ data.length then
    some ⟨u16BE data row_offset, u16BE data (row_offset + 2), u32BE data (row_offset + 4)⟩
  else none

/-- The two cue classes (`CueType`, lines 172-174). -/
inductive CueType where
  | memory
  | hot
deriving DecidableEq, Repr

/-- Cue record of the `PCO2` cue list. `comment` holds the raw UTF-16-BE bytes
passed to `str(…, 'utf-16be')` when a comment is decoded (`none` when the
decode is skipped and the dataclass default `""` remains); `hot_cue_rgb`
bundles the `hot_cue_color_id, r, g, b` attributes, which in Python are only
set when the tail is decoded. -/
structure Cue where
  cue_type : CueType
  hot_cue : Nat
  is_simple : Bool
  is_loop : Bool
  time_in_ms : Nat
  loop_end_in_ms : Nat
  color_id : Nat
  loop_size_quantized : Nat × Nat
  hot_cue_rgb : Option (Nat × Nat × Nat × Nat)
  serialized_size : Nat
  comment : Option (List Nat)
deriving DecidableEq, Repr

/-- The four magic bytes `b'PCP2'`. -/
def pcp2Magic : List Nat := [80, 67, 80, 50]

/-- Embedding of `Cue.from_bytes` (lines 200-225), struct format
`'>4sIIIBBHIIBBHIHHI'` (so `len_entry` at `+8`, `hot_cue` at `+12`,
`simple_type` at `+16`, `time_ms` at `+20`, `loop_end_ms` at `+24`,
`color_id` at `+28`, `loop_num`/`loop_den` at `+36`/`+38`, `len_comment` at
`+40`). `none` models the failed magic assert, `struct.error` on a short
buffer, and the `UnicodeDecodeError` on an odd-length UTF-16-BE comment
slice (surrogate validity is not modelled). -/
def Cue.from_bytes (data : List Nat) (row_offset : Nat) : Option Cue :=
  if row_offset + 44 ≤ data.length then
    if pySlice data row_offset (row_offset + 4) = pcp2Magic then
      let len_entry := u32BE data (row_offset + 8)
      let hot_cue := u32BE data (row_offset + 12)
      let simple_type := u8 data (row_offset + 16)
      let len_comment := u32BE data (row_offset + 40)
      if (44 < len_entry ∧ 0 < len_comment) ∧
          (pySlice data (row_offset + 44) (row_offset + 44 + len_comment - 2)).length % 2 ≠ 0 then
        none
      else if (44 + len_comment < len_entry) ∧
          data.length < row_offset + 44 + len_comment + 4 then
        none
      else
        some { cue_type := if hot_cue = 0 then CueType.memory else CueType.hot
               hot_cue := hot_cue
               is_simple := simple_type == 1
               is_loop := simple_type == 2
               time_in_ms := u32BE data (row_offset + 20)
               loop_end_in_ms := u32BE data (row_offset + 24)
               color_id := u8 data (row_offset + 28)
               loop_size_quantized := (u16BE data (row_offset + 36), u16BE data (row_offset + 38))
               hot_cue_rgb :=
                 if 44 + len_comment < len_entry then
                   some (u8 data (row_offset + 44 + len_comment),
                     u8 data (row_offset + 44 + len_comment + 1),
                     u8 data (row_offset + 44 + len_comment + 2),
                     u8 data (row_offset + 44 + len_comment + 3))
                 else none
               serialized_size := len_entry
               comment :=
                 if 44 < len_entry ∧ 0 < len_comment then
                   some (pySlice data (row_offset + 44) (row_offset + 44 + len_comment - 2))
                 else none }
    else none
  else none

/-- The `PCO2` cue loop (lines 430-434): `len_cues` iterations, each decoding
a cue and advancing `cue_offset` by `cue.serialized_size`. -/
def parseCues (data : List Nat) : Nat → Nat → Option (List Cue)
  | 0, _ => some []
  | n + 1, cue_offset =>
    match Cue.from_bytes data cue_offset with
    | none => none
    | some c => (parseCues data n (cue_offset + c.serialized_size)).map (c :: ·)

/-- The `PQTZ` beat loop (lines 414-419): `len_beats` fixed 8-byte records. -/
def parseBeats (data : List Nat) : Nat → Nat → Option (List Beat)
  | 0, _ => some []
  | n + 1, beat_offset =>
    match Beat.from_bytes data beat_offset with
    | none => none
    | some b => (parseBeats data n (beat_offset + 8)).map (b :: ·)

/-- The `PQTZ` section body (lines 411-419): `struct.unpack('>III', …)` whose
third word is `len_beats`, then the beat records from `tag_header_offset + 12`. -/
def parsePQTZ (data : List Nat) (tag_header_offset : Nat) : Option (List Beat) :=
  if tag_header_offset + 12 ≤ data.length then
    parseBeats data (u32BE data (tag_header_offset + 8)) (tag_header_offset + 12)
  else none

/-- The `PCO2` section body (lines 424-434): `struct.unpack('>IHH', …)` giving
`cue_type, len_cues, zeros`; the zero word is asserted, then the cue loop
runs from `tag_header_offset + 8`. -/
def parsePCO2 (data : List Nat) (tag_header_offset : Nat) : Option (List Cue) :=
  if tag_header_offset + 8 ≤ data.length then
    if u16BE data (tag_header_offset + 6) = 0 then
      parseCues data (u16BE data (tag_header_offset + 4)) (tag_header_offset + 8)
    else none
  else none

/-- A 12-byte ANLZ section header `struct.unpack('>4sII', …)` at `off`:
magic bytes, `len_header`, `len_tag`. -/
def readSectionHeader (data : List Nat) (off : Nat) : Option (List Nat × Nat × Nat) :=
  if off + 12 ≤ data.length then
    some (pySlice data off (off + 4), u32BE data (off + 4), u32BE data (off + 8))
  else none

/-- The four magic bytes `b'PQTZ'`. -/
def pqtzMagic : List Nat := [80, 81, 84, 90]

/-- The four magic bytes `b'PCOB'`. -/
def pcobMagic : List Nat := [80, 67, 79, 66]

/-- The four magic bytes `b'PCO2'`. -/
def pco2Magic : List Nat := [80, 67, 79, 50]

/-- The four magic bytes `b'PMAI'`. -/
def pmaiMagic : List Nat := [80, 77, 65, 73]

/-- Outcome of `parse_anlz_file`: `ok` is a normal return carrying the beats
and cues appended to the track's analysis, `err` is a Python exception
(assert failure or struct/codec error). Both outcomes are terminations. -/
inductive AnlzResult where
  | ok (beats : List Beat) (cues : List Cue)
  | err
deriving DecidableEq, Repr

/-- The tagged-section loop of `parse_anlz_file` (lines 406-436):
`while offset_tagged_section < len_file`, dispatch on the section magic
(`PQTZ` beats, `PCOB` pass, `PCO2` cues, anything else skipped), then
`offset_tagged_section += len_tag`. The first argument of the recursion is
fuel: `none` means the fuel was exhausted, i.e. within that many iterations
the Python loop has neither returned nor raised. -/
def anlzWalk (data : List Nat) (len_file : Nat) :
    Nat → Nat → List Beat → List Cue → Option AnlzResult
  | 0, _, _, _ => none
  | fuel + 1, off, beats, cues =>
    if off < len_file then
      (readSectionHeader data off).elim (some AnlzResult.err) fun hdr =>
        if hdr.1 = pqtzMagic then
          (parsePQTZ data (off + 12)).elim (some AnlzResult.err) fun bs =>
            anlzWalk data len_file fuel (off + hdr.2.2) (beats ++ bs) cues
        else if hdr.1 = pcobMagic then
          anlzWalk data len_file fuel (off + hdr.2.2) beats cues
        else if hdr.1 = pco2Magic then
          (parsePCO2 data (off + 12)).elim (some AnlzResult.err) fun cs =>
            anlzWalk data len_file fuel (off + hdr.2.2) beats (cues ++ cs)
        else
          anlzWalk data len_file fuel (off + hdr.2.2) beats cues
    else some (AnlzResult.ok beats cues)

/-- Embedding of `parse_anlz_file` (lines 393-436): the 12-byte envelope
(`PMAI` magic asserted, `len_file` at `+8` big-endian), then the section
walk from offset 28. -/
def parse_anlz_file (data : List Nat) (fuel : Nat) : Option AnlzResult :=
  if 12 ≤ data.length then
    if pySlice data 0 4 = pmaiMagic then
      anlzWalk data (u32BE data 8) fuel 28 [] []
    else some AnlzResult.err
  else some AnlzResult.err

/-- A track's attached analysis (beat grid and cue list, lines 228-235). -/
structure Analysis where
  beat_grid : List Beat
  cue_points : List Cue
deriving DecidableEq, Repr

/-- Track record (lines 238-319). Numeric fields are the captured struct
fields of the 94-byte base row; string fields hold the decoded PDB strings.
The source stores `tempo / 100` as a float; the model keeps the raw
`tempo_x100`. Defaults model the dataclass defaults / `Track()` construction. -/
structure Track where
  i_shift : Nat := 0
  bitmask : Nat := 0
  sample_rate : Nat := 0
  composer_id : Nat := 0
  file_size : Nat := 0
  artwork_id : Nat := 0
  key_id : Nat := 0
  orig_artist_id : Nat := 0
  label_id : Nat := 0
  remixer_id : Nat := 0
  bitrate : Nat := 0
  track_number : Nat := 0
  tempo_x100 : Nat := 0
  genre_id : Nat := 0
  album_id : Nat := 0
  artist_id : Nat := 0
  track_id : Nat := 0
  disc_number : Nat := 0
  play_count : Nat := 0
  year : Nat := 0
  sample_depth : Nat := 0
  duration_in_s : Nat := 0
  color_id : Nat := 0
  rating : Nat := 0
  analysis : Analysis := ⟨[], []⟩
  date_added : PdbString := default
  release_date : PdbString := default
  mix_name : PdbString := default
  analyze_path : PdbString := default
  analyze_date : PdbString := default
  comment : PdbString := default
  title : PdbString := default
  file_name : PdbString := default
  file_path : PdbString := default
deriving DecidableEq, Repr

/-- The string-offset loop of `Track.from_bytes` (lines 298-317): decode the
string at `row_offset + offset` for every offset in the list (a failed
decode anywhere is fatal, even for slots whose result is discarded). -/
def decodeStrings (page_data : List Nat) (row_offset : Nat) :
    List Nat → Option (List PdbString)
  | [] => some []
  | o :: rest =>
    match string_from_bytes page_data (row_offset + o) with
    | none => none
    | some s => (decodeStrings page_data row_offset rest).map (s :: ·)

/-- The 21 u16 string offsets following the 94-byte base track row
(`struct.unpack('H' * 21, header[94:])`). -/
def trackStringOffsets (page_data : List Nat) (row_offset : Nat) : List Nat :=
  (List.range 21).map fun k => u16LE page_data (row_offset + 94 + 2 * k)

/-- Embedding of `Track.from_bytes` (lines 283-319). The base row is struct
format `'HHIIIIIHHIIIIIIIIIIIIHHHHHHBBHH'` (94 bytes, no padding), so e.g.
`track_id` sits at `+72` and `rating` at `+90`. The loop
`for i, offset in enumerate(string_offsets[1:], 1)` decodes slots 1..20 and
keeps slots 10, 11, 12, 14, 15, 16, 17, 19, 20; slot `i` lands at list
index `i - 1` of the decoded list. -/
def Track.from_bytes (page_data : List Nat) (row_offset : Nat) : Option Track :=
  if row_offset + 136 ≤ page_data.length then
    match decodeStrings page_data row_offset ((trackStringOffsets page_data row_offset).drop 1) with
    | none => none
    | some strs =>
      some { i_shift := u16LE page_data (row_offset + 2)
             bitmask := u32LE page_data (row_offset + 4)
             sample_rate := u32LE page_data (row_offset + 8)
             composer_id := u32LE page_data (row_offset + 12)
             file_size := u32LE page_data (row_offset + 16)
             artwork_id := u32LE page_data (row_offset + 28)
             key_id := u32LE page_data (row_offset + 32)
             orig_artist_id := u32LE page_data (row_offset + 36)
             label_id := u32LE page_data (row_offset + 40)
             remixer_id := u32LE page_data (row_offset + 44)
             bitrate := u32LE page_data (row_offset + 48)
             track_number := u32LE page_data (row_offset + 52)
             tempo_x100 := u32LE page_data (row_offset + 56)
             genre_id := u32LE page_data (row_offset + 60)
             album_id := u32LE page_data (row_offset + 64)
             artist_id := u32LE page_data (row_offset + 68)
             track_id := u32LE page_data (row_offset + 72)
             disc_number := u16LE page_data (row_offset + 76)
             play_count := u16LE page_data (row_offset + 78)
             year := u16LE page_data (row_offset + 80)
             sample_depth := u16LE page_data (row_offset + 82)
             duration_in_s := u16LE page_data (row_offset + 84)
             color_id := u8 page_data (row_offset + 89)
             rating := u16LE page_data (row_offset + 90)
             analysis := ⟨[], []⟩
             date_added := strs.getD 9 default
             release_date := strs.getD 10 default
             mix_name := strs.getD 11 default
             analyze_path := strs.getD 13 default
             analyze_date := strs.getD 14 default
             comment := strs.getD 15 default
             title := strs.getD 16 default
             file_name := strs.getD 18 default
             file_path := strs.getD 19 default }
  else none

/-- Artist record (lines 73-95); the sentinel `Artist()` leaves `name` at the
dataclass default `""`. -/
structure Artist where
  artist_id : Nat := 0
  name : PdbString := default
deriving DecidableEq, Repr

/-- Album record (lines 53-70). -/
structure Album where
  artist_id : Nat := 0
  album_id : Nat := 0
  name : PdbString := default
deriving DecidableEq, Repr

/-- Artwork record (lines 98-106). -/
structure Artwork where
  artwork_id : Nat := 0
  path : PdbString := default
deriving DecidableEq, Repr

/-- Color record (lines 109-121). -/
structure Color where
  color_id : Nat := 0
  name : PdbString := default
deriving DecidableEq, Repr

/-- Genre record (lines 124-132). -/
structure Genre where
  genre_id : Nat := 0
  name : PdbString := default
deriving DecidableEq, Repr

/-- Key record (lines 135-143). -/
structure Key where
  key_id : Nat := 0
  name : PdbString := default
deriving DecidableEq, Repr

/-- Label record (lines 146-154). -/
structure Label where
  label_id : Nat := 0
  name : PdbString := default
deriving DecidableEq, Repr

/-- Playlist tree node (lines 322-341). -/
structure Playlist where
  parent_id : Nat := 0
  sort_order : Nat := 0
  playlist_id : Nat := 0
  raw_is_folder : Nat := 0
  name : PdbString := default
deriving DecidableEq, Repr

/-- Playlist entry (lines 344-355). -/
structure PlaylistEntry where
  entry_index : Nat
  track_id : Nat
  playlist_id : Nat
deriving DecidableEq, Repr

/-- A Python `dict[int, α]` as an association list; `dictGet` models
`d[k]`, with `none` for the `KeyError` on a missing key. -/
def dictGet {α : Type} (m : List (Nat × α)) (k : Nat) : Option α :=
  (m.find? fun p => p.1 == k).map (·.2)

/-- The normalized store `ExportDB` (lines 365-389). -/
structure ExportDB where
  artists : List (Nat × Artist)
  albums : List (Nat × Album)
  artwork : List (Nat × Artwork)
  colors : List (Nat × Color)
  genres : List (Nat × Genre)
  keys : List (Nat × Key)
  labels : List (Nat × Label)
  playlists : List (Nat × Playlist)
  playlist_entries : List PlaylistEntry
  tracks : List (Nat × Track)
deriving DecidableEq, Repr

/-- `ExportDB.__init__` (lines 379-389): the id-0 sentinel rows. -/
def ExportDB.init : ExportDB :=
  { artists := [(0, {})]
    albums := [(0, {})]
    artwork := [(0, {})]
    colors := [(0, {})]
    genres := [(0, {})]
    keys := [(0, {})]
    labels := [(0, {})]
    playlists := []
    playlist_entries := []
    tracks := [] }

/-- The memory-cue selection of the emitter (export_to_traktor.py lines
136-137): drop hot cues, then `sorted(cues, key=lambda c: c.time_in_ms)`. -/
def memoryCuesSorted (cue_points : List Cue) : List Cue :=
  (cue_points.filter fun cp => cp.cue_type != CueType.hot).mergeSort
    fun a b => a.time_in_ms ≤ b.time_in_ms

/-- The truncation of lines 138-141: keep only the first 8 cues (with a
warning) when more than 8 memory cues are present. -/
def truncateCues (cues : List Cue) : List Cue :=
  if 8 < cues.length then cues.take 8 else cues

/-- The emitted non-AutoGrid `CUE_V2` elements of one entry (lines 143-151):
`enumerate` pairs each kept cue with its index `i`, emitted as `HOTCUE`.
(The `continue` for hot cues inside this loop is unreachable: hot cues were
already filtered out.) -/
def emitMemoryCues (cue_points : List Cue) : List (Nat × Cue) :=
  (truncateCues (memoryCuesSorted cue_points)).enum

/-- The data of one emitted `<ENTRY>` that the modelled claims observe. -/
structure EmittedEntry where
  track_id : Nat
  title : PdbString
  artist_name : PdbString
  album_name : PdbString
  genre_name : PdbString
  label_name : PdbString
  key_name : PdbString
  auto_grid_start : Nat
  cues : List (Nat × Cue)
deriving DecidableEq, Repr

/-- One iteration of the emitter's entry loop (lines 89-151), in source
order: `export_db.tracks[...]` (KeyError on a dangling id), the
`artists`/`albums`/`genres`/`labels`/`keys` sentinel-map lookups, then
`next(beat for beat in track.analysis.beat_grid if beat.num == 1)`
(StopIteration when no beat has `num == 1`), then the memory-cue elements.
`none` models the uncaught exception aborting the emission. -/
def buildEntry (db : ExportDB) (track_id : Nat) : Option EmittedEntry :=
  match dictGet db.tracks track_id with
  | none => none
  | some track =>
    match dictGet db.artists track.artist_id with
    | none => none
    | some artist =>
      match dictGet db.albums track.album_id with
      | none => none
      | some album =>
        match dictGet db.genres track.genre_id with
        | none => none
        | some genre =>
          match dictGet db.labels track.label_id with
          | none => none
          | some label =>
            match dictGet db.keys track.key_id with
            | none => none
            | some key =>
              match track.analysis.beat_grid.find? fun b => b.num == 1 with
              | none => none
              | some grid_start =>
                some { track_id := track_id
                       title := track.title
                       artist_name := artist.name
                       album_name := album.name
                       genre_name := genre.name
                       label_name := label.name
                       key_name := key.name
                       auto_grid_start := grid_start.time_in_ms
                       cues := emitMemoryCues track.analysis.cue_points }

/-- The selection and ordering of a playlist's entries (lines 83-84):
filter `playlist_entries` by `playlist_id`, sort by `entry_index`. -/
def playlistEntriesSorted (db : ExportDB) (playlist_id : Nat) : List PlaylistEntry :=
  (db.playlist_entries.filter fun e => e.playlist_id == playlist_id).mergeSort
    fun a b => a.entry_index ≤ b.entry_index

/-- The emitter's `for pl_entry in entries` loop: build every entry, a
failure anywhere aborting the whole emission. -/
def buildEntries (db : ExportDB) : List PlaylistEntry → Option (List EmittedEntry)
  | [] => some []
  | e :: rest =>
    match buildEntry db e.track_id with
    | none => none
    | some ee => (buildEntries db rest).map (ee :: ·)

/-- The per-playlist emission of `export_to_traktor` restricted to the
`<ENTRY>` content the claims observe: `none` means the Python run dies with
an uncaught exception and emits no NML for the playlist. -/
def emitPlaylist (db : ExportDB) (playlist_id : Nat) : Option (List EmittedEntry) :=
  buildEntries db (playlistEntriesSorted db playlist_id)

/-- Concrete 36-byte slot block for the C2 witness: word 13 = 9, word 15 = 7,
word 16 (presence mask) = 5 (rows 0 and 2 present). -/
def c2page : List Nat :=
  [0, 0, 0, 0, 0, 0, 0, 0, 0, 0, 0, 0, 0, 0, 0, 0, 0, 0, 0, 0, 0, 0, 0, 0, 0, 0,
   9, 0, 0, 0, 7, 0, 5, 0, 0, 0]

/-- The 18 words of `c2page`. -/
def c2ws : List Nat :=
  [0, 0, 0, 0, 0, 0, 0, 0, 0, 0, 0, 0, 0, 9, 0, 7, 5, 0]

/-- Concrete 44-byte PCP2 cue record for the C4 witness:
`len_entry = 44`, `len_comment = 0`, all other fields zero. -/
def c4data : List Nat :=
  [80, 67, 80, 50, 0, 0, 0, 0, 0, 0, 0, 44, 0, 0, 0, 0, 0, 0, 0, 0, 0, 0,
   0, 0, 0, 0, 0, 0, 0, 0, 0, 0, 0, 0, 0, 0, 0, 0, 0, 0, 0, 0, 0, 0]

/-- The cue decoded from `c4data`. -/
def c4cue : Cue :=
  { cue_type := CueType.memory
    hot_cue := 0
    is_simple := false
    is_loop := false
    time_in_ms := 0
    loop_end_in_ms := 0
    color_id := 0
    loop_size_quantized := (0, 0)
    hot_cue_rgb := none
    serialized_size := 44
    comment := none }

/-- Library with one playlist entry (playlist 5) whose `track_id = 1` does
not resolve to any track. -/
def c5db : ExportDB :=
  { ExportDB.init with playlist_entries := [⟨0, 1, 5⟩] }

/-- Library with one playlist entry (playlist 9) whose `track_id = 7` does
not resolve to any track. -/
def c5db2 : ExportDB :=
  { ExportDB.init with playlist_entries := [⟨0, 7, 9⟩] }

/-- Track 1 whose beat grid has no beat with `num = 1`. -/
def c6track : Track :=
  { track_id := 1, analysis := ⟨[⟨2, 12000, 0⟩], []⟩ }

/-- Library that contains `c6track` and one playlist entry for it. -/
def c6db : ExportDB :=
  { ExportDB.init with tracks := [(1, c6track)], playlist_entries := [⟨0, 1, 6⟩] }

/-- Track 2 whose beat grid has no beat with `num = 1`. -/
def c6track2 : Track :=
  { track_id := 2, analysis := ⟨[⟨4, 0, 100⟩], []⟩ }

/-- Library that contains `c6track2` and one playlist entry for it. -/
def c6db2 : ExportDB :=
  { ExportDB.init with tracks := [(2, c6track2)], playlist_entries := [⟨0, 2, 11⟩] }

/-- Concrete 136-byte track row whose 21 string offsets are all 0 and whose
first two bytes are a short-ASCII string of one character `X` (0x58). -/
def c9page : List Nat := [5, 88] ++ List.replicate 134 0

/-- The one-character string decoded at the start of `c9page`. -/
def c9str : PdbString := ⟨StrEncoding.shortAscii, [88]⟩

/-- The track decoded from `c9page` at row offset 0. -/
def c9track : Track :=
  { analysis := ⟨[], []⟩
    date_added := c9str
    release_date := c9str
    mix_name := c9str
    analyze_path := c9str
    analyze_date := c9str
    comment := c9str
    title := c9str
    file_name := c9str
    file_path := c9str }

/-- Concrete 40-byte ANLZ file whose single tagged section (at offset 28,
unknown magic `XXXX`) declares `len_tag = 0` while `len_file = 40`. -/
def c10data : List Nat :=
  pmaiMagic ++ [0, 0, 0, 0, 0, 0, 0, 40] ++ List.replicate 16 0 ++
    [88, 88, 88, 88, 0, 0, 0, 0, 0, 0, 0, 0]

/-- The modelled `parse_anlz_file` diverges on `data`: for every fuel bound,
the section loop has neither returned nor raised within that many
iterations (the fuel-out result `none` for all fuels is non-termination of
the Python `while` loop). -/
def anlzWalkDiverges (data : List Nat) : Prop :=
  ∀ fuel, parse_anlz_file data fuel = none

theorem land_one_shiftLeft_eq_zero (m i : Nat) :
    m &&& (1 <<< i) = 0 ↔ m.testBit i = false := by
  rw [Nat.one_shiftLeft, Nat.and_two_pow]
  cases h : m.testBit i
  · simp
  · have h2 := Nat.two_pow_pos i
    simp only [Bool.toNat_true, one_mul]
    constructor
    · intro h0
      omega
    · intro h0
      exact absurd h0 (by decide)

/-- C1: for every byte buffer and offset, the PDB string decoder behaves per
the codec: if bit 0 of the header byte `m` is set, it returns the
`(m >> 1) - 1` ASCII bytes that start immediately after `m`; otherwise it
reads a 16-bit little-endian length `len` at `offset + 1` and returns the
`len - 4` payload bytes starting at `offset + 4`, decoded as UTF-16 if bit 4
of `m` is set, UTF-8 if bit 5 is set, else ASCII. -/
theorem C1_string_codec (data : List Nat) (offset : Nat)
    (hin : offset < data.length) :
    ((u8 data offset).testBit 0 = true →
      string_from_bytes data offset =
        some ⟨StrEncoding.shortAscii,
              (data.drop (offset + 1)).take (u8 data offset >>> 1 - 1)⟩ ∧
      (offset + u8 data offset >>> 1 ≤ data.length →
        ((data.drop (offset + 1)).take (u8 data offset >>> 1 - 1)).length =
          u8 data offset >>> 1 - 1)) ∧
    ((u8 data offset).testBit 0 = false → offset + 3 ≤ data.length →
      string_from_bytes data offset =
        some ⟨if (u8 data offset).testBit 4 then StrEncoding.utf16
              else if (u8 data offset).testBit 5 then StrEncoding.utf8
              else StrEncoding.ascii,
              (data.drop (offset + 4)).take (u16LE data (offset + 1) - 4)⟩ ∧
      (offset + u16LE data (offset + 1) ≤ data.length →
        ((data.drop (offset + 4)).take (u16LE data (offset + 1) - 4)).length =
          u16LE data (offset + 1) - 4)) := by
  constructor
  · intro hbit
    constructor
    · have hcond : u8 data offset &&& (1 <<< 0) ≠ 0 := by
        rw [Ne, land_one_shiftLeft_eq_zero, hbit]
        simp
      simp only [string_from_bytes, pySlice]
      rw [if_pos (by omega), if_pos hcond]
      have harith : offset + u8 data offset >>> 1 - (offset + 1) =
          u8 data offset >>> 1 - 1 := by omega
      rw [harith]
    · intro hlen
      rw [List.length_take, List.length_drop]
      omega
  · intro hbit hlong
    constructor
    · have hcond : ¬ u8 data offset &&& (1 <<< 0) ≠ 0 := by
        rw [Ne, land_one_shiftLeft_eq_zero, hbit]
        simp
      simp only [string_from_bytes, pySlice]
      rw [if_pos (by omega), if_neg hcond, if_pos hlong]
      have harith : offset + u16LE data (offset + 1) - (offset + 4) =
          u16LE data (offset + 1) - 4 := by omega
      rw [harith]
      have e4 : (u8 data offset &&& (1 <<< 4) ≠ 0) ↔ ((u8 data offset).testBit 4 = true) := by
        rw [Ne, land_one_shiftLeft_eq_zero]
        cases (u8 data offset).testBit 4 <;> simp
      have e5 : (u8 data offset &&& (1 <<< 5) ≠ 0) ↔ ((u8 data offset).testBit 5 = true) := by
        rw [Ne, land_one_shiftLeft_eq_zero]
        cases (u8 data offset).testBit 5 <;> simp
      simp only [e4, e5]
    · intro hlen
      rw [List.length_take, List.length_drop]
      omega

theorem C1_witness :
    string_from_bytes [5, 65, 66] 0 = some ⟨StrEncoding.shortAscii, [65]⟩ ∧
    string_from_bytes [144, 8, 0, 0, 65, 0, 0, 0] 0 =
      some ⟨StrEncoding.utf16, [65, 0, 0, 0]⟩ := by
  constructor
  · have h := ((C1_string_codec [5, 65, 66] 0 (by decide)).1 (by decide)).1
    rw [h]
    decide
  · have h := ((C1_string_codec [144, 8, 0, 0, 65, 0, 0, 0] 0 (by decide)).2
      (by decide) (by decide)).1
    rw [h]
    decide

/-- C3: the effective row count equals `rows_large` when
`rows_large > rows_small` and `rows_large ≠ 0x1fff`, and equals `rows_small`
otherwise; in particular whenever `rows_large = 0x1fff` the effective row
count is `rows_small`. -/
theorem C3_effective_row_count (num_rows_s num_rows_l : Nat) :
    ((num_rows_s < num_rows_l ∧ num_rows_l ≠ 0x1fff) →
      effectiveRowCount num_rows_s num_rows_l = num_rows_l) ∧
    (¬(num_rows_s < num_rows_l ∧ num_rows_l ≠ 0x1fff) →
      effectiveRowCount num_rows_s num_rows_l = num_rows_s) ∧
    (num_rows_l = 0x1fff → effectiveRowCount num_rows_s num_rows_l = num_rows_s) := by
  refine ⟨fun h => ?_, fun h => ?_, fun h => ?_⟩ <;> unfold effectiveRowCount
  · rw [if_pos h]
  · rw [if_neg h]
  · rw [if_neg (by simp [h])]

theorem C3_witness :
    effectiveRowCount 3 5 = 5 ∧ effectiveRowCount 3 0x1fff = 3 ∧
    effectiveRowCount 7 2 = 7 :=
  ⟨(C3_effective_row_count 3 5).1 (by decide),
   (C3_effective_row_count 3 0x1fff).2.2 rfl,
   (C3_effective_row_count 7 2).2.1 (by decide)⟩

theorem groupRowsAux_eq (mask : Nat) (offs : List Nat) : ∀ i : Nat,
    groupRowsAux mask offs i =
      (List.range offs.length).filterMap fun j =>
        if mask.testBit (i + j) then some (40 + offs.getD j 0) else none := by
  induction offs with
  | nil =>
    intro i
    simp [groupRowsAux]
  | cons o rest ih =>
    intro i
    have htail :
        List.filterMap
            (fun j => if mask.testBit (i + j) then some (40 + (o :: rest).getD j 0) else none)
            (List.map Nat.succ (List.range rest.length)) =
          groupRowsAux mask rest (i + 1) := by
      rw [List.filterMap_map, ih (i + 1)]
      apply List.filterMap_congr
      intro j hj
      simp only [Function.comp_apply]
      rw [show i + Nat.succ j = i + 1 + j from by omega, List.getD_cons_succ]
    rw [List.length_cons, List.range_succ_eq_map]
    by_cases hb : mask.testBit i
    · have hf0 : (fun j =>
          if mask.testBit (i + j) then some (40 + (o :: rest).getD j 0) else none) 0 =
            some (40 + o) := by simp [hb]
      rw [@List.filterMap_cons_some _ _
        (fun j => if mask.testBit (i + j) then some (40 + (o :: rest).getD j 0) else none)
        0 (List.map Nat.succ (List.range rest.length)) (40 + o) hf0, htail]
      simp only [groupRowsAux]
      rw [if_neg (by rw [land_one_shiftLeft_eq_zero, hb]; simp)]
    · have hf0 : (fun j =>
          if mask.testBit (i + j) then some (40 + (o :: rest).getD j 0) else none) 0 =
            none := by simp [hb]
      rw [@List.filterMap_cons_none _ _
        (fun j => if mask.testBit (i + j) then some (40 + (o :: rest).getD j 0) else none)
        0 (List.map Nat.succ (List.range rest.length)) hf0, htail]
      simp only [groupRowsAux]
      rw [if_pos (by rw [land_one_shiftLeft_eq_zero]; simpa using hb)]

/-- C2: the page walker reads the 36-byte slot block for group `g` at page
offset `page_size - (g + 1) * 36` as 18 little-endian 16-bit words; after
reversing them, word 1 is the presence mask and words 2..17 are the 16 row
offsets; row `i` of the group is decoded iff bit `i` of the presence mask is
set, and a present row is decoded starting at page offset `40 + offset`
(stated via `specGroupRows`, which transcribes the claim's layout in terms
of direct word indices). -/
theorem C2_slot_group_layout (page_data : List Nat) (len_page g : Nat) (ws : List Nat)
    (h : slotBlock page_data (len_page - g * 36 - 36) = some ws) :
    len_page - g * 36 - 36 = len_page - (g + 1) * 36 ∧
    (∀ k, k < 18 → ws.getD k 0 = u16LE page_data (len_page - (g + 1) * 36 + 2 * k)) ∧
    slotGroupRows page_data len_page g = some (specGroupRows ws) := by
  have hpos : len_page - g * 36 - 36 = len_page - (g + 1) * 36 := by omega
  have h0 := h
  unfold slotBlock at h
  by_cases hlen : len_page - g * 36 - 36 + 36 ≤ page_data.length
  case neg =>
    rw [if_neg hlen] at h
    exact absurd h (by simp)
  rw [if_pos hlen] at h
  injection h with hws
  have hlen18 : ws.length = 18 := by
    rw [← hws]
    simp
  refine ⟨hpos, ?_, ?_⟩
  · intro k hk
    rw [← hws, ← hpos, List.getD_eq_getElem?_getD, List.getElem?_map,
      List.getElem?_range hk]
    rfl
  · have hmask : ws.reverse.getD 1 0 = ws.getD 16 0 := by
      rw [List.getD_eq_getElem?_getD, List.getElem?_reverse (by omega), hlen18]
      rw [List.getD_eq_getElem?_getD]
    have hdroplen : (ws.reverse.drop 2).length = 16 := by
      rw [List.length_drop, List.length_reverse, hlen18]
    have hoff : ∀ j, j < 16 → (ws.reverse.drop 2).getD j 0 = ws.getD (15 - j) 0 := by
      intro j hj
      rw [List.getD_eq_getElem?_getD, List.getElem?_drop,
        List.getElem?_reverse (by omega), hlen18,
        show 18 - 1 - (2 + j) = 15 - j from by omega, ← List.getD_eq_getElem?_getD]
    unfold slotGroupRows
    rw [h0, Option.map_some']
    congr 1
    rw [groupRowsAux_eq, hdroplen]
    unfold specGroupRows
    apply List.filterMap_congr
    intro j hj
    rw [zero_add, hmask, hoff j (List.mem_range.mp hj)]

theorem C2_witness :
    slotGroupRows c2page 36 0 = some [47, 49] ∧
    (36 : Nat) - 0 * 36 - 36 = 36 - (0 + 1) * 36 := by
  have h := C2_slot_group_layout c2page 36 0 c2ws (by decide)
  constructor
  · rw [h.2.2]
    decide
  · exact h.1

/-- C4: for every PCO2 cue record starting at `cue_start` with declared
lengths `len_entry` (at `+8`) and `len_comment` (at `+40`): a comment is
decoded exactly when `len_entry > 44` and `len_comment > 0`, consisting of
the `len_comment - 2` bytes after the 44-byte fixed header (UTF-16-BE, the
trailing NUL dropped by the `- 2`); a 4-byte
`(hot_cue_color_id, r, g, b)` tail is decoded exactly when
`len_entry > 44 + len_comment`; and the cue loop advances to the next cue
at `cue_start + len_entry`. -/
theorem C4_cue_record (data : List Nat) (off : Nat) (c : Cue)
    (h : Cue.from_bytes data off = some c) :
    c.serialized_size = u32BE data (off + 8) ∧
    ((44 < u32BE data (off + 8) ∧ 0 < u32BE data (off + 40)) →
      c.comment = some (pySlice data (off + 44) (off + 44 + u32BE data (off + 40) - 2))) ∧
    (¬(44 < u32BE data (off + 8) ∧ 0 < u32BE data (off + 40)) → c.comment = none) ∧
    (44 + u32BE data (off + 40) < u32BE data (off + 8) →
      c.hot_cue_rgb = some (u8 data (off + 44 + u32BE data (off + 40)),
        u8 data (off + 44 + u32BE data (off + 40) + 1),
        u8 data (off + 44 + u32BE data (off + 40) + 2),
        u8 data (off + 44 + u32BE data (off + 40) + 3))) ∧
    (¬(44 + u32BE data (off + 40) < u32BE data (off + 8)) → c.hot_cue_rgb = none) ∧
    (∀ n, parseCues data (n + 1) off =
      (parseCues data n (off + u32BE data (off + 8))).map (c :: ·)) := by
  have horig := h
  simp only [Cue.from_bytes] at h
  by_cases hb : off + 44 ≤ data.length
  swap
  · rw [if_neg hb] at h
    exact absurd h (by simp)
  rw [if_pos hb] at h
  by_cases hm : pySlice data off (off + 4) = pcp2Magic
  swap
  · rw [if_neg hm] at h
    exact absurd h (by simp)
  rw [if_pos hm] at h
  by_cases hg1 : (44 < u32BE data (off + 8) ∧ 0 < u32BE data (off + 40)) ∧
      (pySlice data (off + 44) (off + 44 + u32BE data (off + 40) - 2)).length % 2 ≠ 0
  · rw [if_pos hg1] at h
    exact absurd h (by simp)
  rw [if_neg hg1] at h
  by_cases hg2 : (44 + u32BE data (off + 40) < u32BE data (off + 8)) ∧
      data.length < off + 44 + u32BE data (off + 40) + 4
  · rw [if_pos hg2] at h
    exact absurd h (by simp)
  rw [if_neg hg2] at h
  injection h with hc
  subst hc
  refine ⟨rfl, ?_, ?_, ?_, ?_, ?_⟩
  · intro hcc
    simp [hcc.1, hcc.2]
  · intro hnc
    simp [hnc]
  · intro ht
    simp [ht]
  · intro hnt
    simp [hnt]
  · intro n
    simp only [parseCues, horig]

theorem C4_witness :
    c4cue.serialized_size = u32BE c4data 8 ∧ c4cue.comment = none ∧
    c4cue.hot_cue_rgb = none ∧ parseCues c4data (0 + 1) 0 = some [c4cue] := by
  have h := C4_cue_record c4data 0 c4cue (by decide)
  refine ⟨h.1, h.2.2.1 (by decide), h.2.2.2.2.1 (by decide), ?_⟩
  rw [h.2.2.2.2.2 0]
  decide

theorem buildEntries_eq_none (db : ExportDB) {l : List PlaylistEntry} {e : PlaylistEntry}
    (he : e ∈ l) (hfail : buildEntry db e.track_id = none) :
    buildEntries db l = none := by
  induction l with
  | nil => cases he
  | cons a rest ih =>
    rcases List.mem_cons.mp he with rfl | hmem
    · simp only [buildEntries, hfail]
    · simp only [buildEntries]
      cases hbe : buildEntry db a.track_id
      · rfl
      · rw [ih hmem]
        rfl

theorem emitPlaylist_eq_none (db : ExportDB) (pid : Nat) (e : PlaylistEntry)
    (he : e ∈ db.playlist_entries) (hp : e.playlist_id = pid)
    (hfail : buildEntry db e.track_id = none) :
    emitPlaylist db pid = none := by
  have hmem : e ∈ playlistEntriesSorted db pid := by
    unfold playlistEntriesSorted
    exact List.mem_mergeSort.mpr (List.mem_filter.mpr ⟨he, by simp [hp]⟩)
  exact buildEntries_eq_none db hmem hfail

theorem buildEntry_none_of_dangling (db : ExportDB) (tid : Nat)
    (h : dictGet db.tracks tid = none) : buildEntry db tid = none := by
  simp only [buildEntry, h]

theorem buildEntry_none_of_no_grid (db : ExportDB) (tid : Nat) (track : Track)
    (h : dictGet db.tracks tid = some track)
    (hg : track.analysis.beat_grid.find? (fun b => b.num == 1) = none) :
    buildEntry db tid = none := by
  simp only [buildEntry, h]
  cases dictGet db.artists track.artist_id with
  | none => rfl
  | some artist =>
    cases dictGet db.albums track.album_id with
    | none => rfl
    | some album =>
      cases dictGet db.genres track.genre_id with
      | none => rfl
      | some genre =>
        cases dictGet db.labels track.label_id with
        | none => rfl
        | some label =>
          cases dictGet db.keys track.key_id with
          | none => rfl
          | some key =>
            rw [hg]

/-- C5 counterexample: in `c5db` the playlist entry's `track_id = 1` is
dangling, and the emission of playlist 5 fails (Python dies with a
`KeyError` at `export_db.tracks[pl_entry.track_id]`); the entry is not
dropped and no NML is produced, contradicting the claim that emission does
not fail. -/
theorem C5_counterexample : emitPlaylist c5db 5 = none := by
  apply emitPlaylist_eq_none c5db 5 ⟨0, 1, 5⟩ (by decide) rfl
  exact buildEntry_none_of_dangling c5db 1 (by decide)

/-- C5 amended: for every decoded library in which some playlist entry's
`track_id` does not resolve to an existing track, NML emission of that
playlist fails with an uncaught `KeyError` (no NML is produced for the
playlist); the dangling entry is not dropped. -/
theorem C5_dangling_entry_fails (db : ExportDB) (pid : Nat) (e : PlaylistEntry)
    (he : e ∈ db.playlist_entries) (hp : e.playlist_id = pid)
    (hdangling : dictGet db.tracks e.track_id = none) :
    emitPlaylist db pid = none :=
  emitPlaylist_eq_none db pid e he hp
    (buildEntry_none_of_dangling db e.track_id hdangling)

theorem C5_witness : emitPlaylist c5db2 9 = none :=
  C5_dangling_entry_fails c5db2 9 ⟨0, 7, 9⟩ (by decide) rfl (by decide)

/-- C6 counterexample: `c6track`'s beat grid contains no beat with
`num = 1`, and emission of playlist 6 fails (Python dies with
`StopIteration` at `next(beat for beat in track.analysis.beat_grid if
beat.num == 1)`); the AutoGrid cue is not merely omitted and the entry is
not emitted, contradicting the claim that the emitter continues. -/
theorem C6_counterexample : emitPlaylist c6db 6 = none := by
  apply emitPlaylist_eq_none c6db 6 ⟨0, 1, 6⟩ (by decide) rfl
  exact buildEntry_none_of_no_grid c6db 1 c6track (by decide) (by decide)

/-- C6 amended: for every track whose beat grid contains no beat with
`num = 1`, emission of any playlist containing that track fails with an
uncaught `StopIteration` (no NML is produced for the playlist); the
AutoGrid cue is not merely omitted. -/
theorem C6_missing_autogrid_fails (db : ExportDB) (pid : Nat) (e : PlaylistEntry)
    (track : Track) (he : e ∈ db.playlist_entries) (hp : e.playlist_id = pid)
    (htrack : dictGet db.tracks e.track_id = some track)
    (hgrid : track.analysis.beat_grid.find? (fun b => b.num == 1) = none) :
    emitPlaylist db pid = none :=
  emitPlaylist_eq_none db pid e he hp
    (buildEntry_none_of_no_grid db e.track_id track htrack hgrid)

theorem C6_witness : emitPlaylist c6db2 11 = none :=
  C6_missing_autogrid_fails c6db2 11 ⟨0, 2, 11⟩ c6track2 (by decide) rfl
    (by decide) (by decide)

/-- C7: for every emitted NML entry, the non-AutoGrid CUE_V2 elements are
exactly the track's memory cues (hot cues excluded) sorted by `time_in_ms`
and truncated to at most 8; their HOTCUE attributes are the indices
`0, 1, …, k-1` of the sorted list for `k ≤ 8`, and their START values
(`time_in_ms`) are non-decreasing. -/
theorem C7_memory_cues (cue_points : List Cue) :
    (emitMemoryCues cue_points).map Prod.fst =
      List.range (emitMemoryCues cue_points).length ∧
    (emitMemoryCues cue_points).length ≤ 8 ∧
    List.Chain' (fun a b => a.2.time_in_ms ≤ b.2.time_in_ms) (emitMemoryCues cue_points) ∧
    (emitMemoryCues cue_points).map Prod.snd = (memoryCuesSorted cue_points).take 8 ∧
    ∀ p ∈ emitMemoryCues cue_points, p.2.cue_type ≠ CueType.hot := by
  have htrunc : truncateCues (memoryCuesSorted cue_points) =
      (memoryCuesSorted cue_points).take 8 := by
    unfold truncateCues
    by_cases h8 : 8 < (memoryCuesSorted cue_points).length
    · rw [if_pos h8]
    · rw [if_neg h8, List.take_of_length_le (by omega)]
  have hsorted := @List.sorted_mergeSort Cue
    (fun a b => a.time_in_ms ≤ b.time_in_ms)
    (fun a b c h1 h2 => by
      simp only [decide_eq_true_eq] at h1 h2 ⊢
      omega)
    (fun a b => by
      simp only [Bool.or_eq_true, decide_eq_true_eq]
      exact Nat.le_total _ _)
    (cue_points.filter fun cp => cp.cue_type != CueType.hot)
  have hpair : List.Pairwise (fun a b : Cue => a.time_in_ms ≤ b.time_in_ms)
      (memoryCuesSorted cue_points) := by
    unfold memoryCuesSorted
    exact hsorted.imp fun h => by simpa using h
  have htake : List.Pairwise (fun a b : Cue => a.time_in_ms ≤ b.time_in_ms)
      ((memoryCuesSorted cue_points).take 8) :=
    List.Pairwise.sublist (List.take_sublist 8 _) hpair
  refine ⟨?_, ?_, ?_, ?_, ?_⟩
  · unfold emitMemoryCues
    rw [htrunc, List.enum_map_fst, List.enum_length]
  · unfold emitMemoryCues
    rw [htrunc, List.enum_length, List.length_take]
    exact min_le_left _ _
  · unfold emitMemoryCues
    rw [htrunc]
    have hch : List.Chain' (fun a b : Cue => a.time_in_ms ≤ b.time_in_ms)
        ((memoryCuesSorted cue_points).take 8) := htake.chain'
    rw [← List.enum_map_snd ((memoryCuesSorted cue_points).take 8),
      List.chain'_map] at hch
    exact hch
  · unfold emitMemoryCues
    rw [htrunc, List.enum_map_snd]
  · intro p hp
    unfold emitMemoryCues at hp
    rw [htrunc] at hp
    have hsnd : p.2 ∈ (memoryCuesSorted cue_points).take 8 := by
      have hm := List.mem_map_of_mem Prod.snd hp
      rwa [List.enum_map_snd] at hm
    have hmem : p.2 ∈ memoryCuesSorted cue_points :=
      (List.take_sublist 8 _).subset hsnd
    unfold memoryCuesSorted at hmem
    rw [List.mem_mergeSort] at hmem
    have hflt := (List.mem_filter.mp hmem).2
    simpa using hflt

theorem utf16PairsLE_concat_zero :
    ∀ n (p : List Nat), p.length ≤ n → p.length % 2 = 0 →
      ∃ us, utf16PairsLE (p ++ [0, 0]) = some (us ++ [0]) := by
  intro n
  induction n with
  | zero =>
    intro p hlen _
    have hnil : p = [] := List.eq_nil_of_length_eq_zero (by omega)
    subst hnil
    exact ⟨[], by simp [utf16PairsLE]⟩
  | succ n ih =>
    intro p hlen hev
    match p with
    | [] => exact ⟨[], by simp [utf16PairsLE]⟩
    | [a] => simp at hev
    | a :: b :: rest =>
      obtain ⟨us, hus⟩ := ih rest (by simp at hlen; omega) (by simp at hev; omega)
      exact ⟨(a + 256 * b) :: us, by simp [utf16PairsLE, hus]⟩

theorem utf16PairsBE_concat_zero :
    ∀ n (p : List Nat), p.length ≤ n → p.length % 2 = 0 →
      ∃ us, utf16PairsBE (p ++ [0, 0]) = some (us ++ [0]) := by
  intro n
  induction n with
  | zero =>
    intro p hlen _
    have hnil : p = [] := List.eq_nil_of_length_eq_zero (by omega)
    subst hnil
    exact ⟨[], by simp [utf16PairsBE]⟩
  | succ n ih =>
    intro p hlen hev
    match p with
    | [] => exact ⟨[], by simp [utf16PairsBE]⟩
    | [a] => simp at hev
    | a :: b :: rest =>
      obtain ⟨us, hus⟩ := ih rest (by simp at hlen; omega) (by simp at hev; omega)
      exact ⟨(256 * a + b) :: us, by simp [utf16PairsBE, hus]⟩

/-- C8 counterexample: a UTF-16 string whose stored payload ends in a NUL
unit decodes (at the code-unit level of Python's utf-16 codec) to a string
that ends in U+0000: `string_from_bytes` performs no trimming, contradicting
the claim that the decoded string never ends in U+0000. -/
theorem C8_counterexample :
    string_from_bytes [16, 8, 0, 0, 65, 0, 0, 0] 0 =
      some ⟨StrEncoding.utf16, [65, 0, 0, 0]⟩ ∧
    utf16Decode [65, 0, 0, 0] = some [65, 0] ∧
    ([65, 0] : List Nat).getLast? = some 0 := by
  decide

/-- C8 amended: trailing NULs inside UTF-16 payloads are preserved, not
trimmed: whenever the PDB string codec returns a UTF-16 payload of even
length that ends in a `00 00` unit, the decoded string ends in U+0000. -/
theorem C8_trailing_nul_preserved (data : List Nat) (off : Nat) (payload p : List Nat)
    (hdec : string_from_bytes data off = some ⟨StrEncoding.utf16, payload⟩)
    (hsplit : payload = p ++ [0, 0]) (hev : payload.length % 2 = 0) :
    ∃ us, utf16Decode payload = some us ∧ us.getLast? = some 0 := by
  subst hsplit
  match p with
  | [] =>
    exact ⟨[0], by decide, by decide⟩
  | [a] =>
    exfalso
    have h3 : ([a] ++ [0, 0] : List Nat).length = 3 := by simp
    rw [h3] at hev
    omega
  | a :: b :: rest =>
    have hev' : rest.length % 2 = 0 := by
      have h4 : ((a :: b :: rest) ++ [0, 0]).length = rest.length + 4 := by
        simp
      rw [h4] at hev
      omega
    simp only [List.cons_append, utf16Decode]
    by_cases h1 : a = 255 ∧ b = 254
    · rw [if_pos h1]
      obtain ⟨us, hus⟩ := utf16PairsLE_concat_zero rest.length rest le_rfl hev'
      exact ⟨us ++ [0], hus, List.getLast?_concat _⟩
    · rw [if_neg h1]
      by_cases h2 : a = 254 ∧ b = 255
      · rw [if_pos h2]
        obtain ⟨us, hus⟩ := utf16PairsBE_concat_zero rest.length rest le_rfl hev'
        exact ⟨us ++ [0], hus, List.getLast?_concat _⟩
      · rw [if_neg h2]
        obtain ⟨us, hus⟩ :=
          utf16PairsLE_concat_zero (a :: b :: rest).length (a :: b :: rest) le_rfl
            (by simp; omega)
        refine ⟨us ++ [0], ?_, List.getLast?_concat _⟩
        simpa using hus

theorem C8_witness :
    ∃ us, utf16Decode [65, 0, 0, 0] = some us ∧ us.getLast? = some 0 :=
  C8_trailing_nul_preserved [16, 8, 0, 0, 65, 0, 0, 0] 0 [65, 0, 0, 0] [65, 0]
    (by decide) (by decide) (by decide)

theorem decodeStrings_getD (page_data : List Nat) (row_offset : Nat) :
    ∀ (l : List Nat) (strs : List PdbString),
      decodeStrings page_data row_offset l = some strs →
      ∀ i, i < l.length →
        string_from_bytes page_data (row_offset + l.getD i 0) =
          some (strs.getD i default) := by
  intro l
  induction l with
  | nil =>
    intro strs h i hi
    simp at hi
  | cons o rest ih =>
    intro strs h i hi
    simp only [decodeStrings] at h
    cases hs : string_from_bytes page_data (row_offset + o) with
    | none =>
      rw [hs] at h
      simp at h
    | some s =>
      rw [hs] at h
      cases hr : decodeStrings page_data row_offset rest with
      | none =>
        rw [hr] at h
        simp at h
      | some srest =>
        rw [hr] at h
        simp only [Option.map_some'] at h
        injection h with h'
        subst h'
        cases i with
        | zero => simpa [List.getD_cons_zero] using hs
        | succ j =>
          have hj := ih srest hr j (by simp at hi; omega)
          simpa [List.getD_cons_succ] using hj

/-- C9 amended: a string-offset slot whose stored offset is 0 is not
special-cased: the corresponding attribute is whatever the string codec
decodes at the row start itself (shown here for slot 17, the title), not
the empty string. -/
theorem C9_zero_offset_decodes_row_start (page_data : List Nat) (row_offset : Nat)
    (t : Track) (h : Track.from_bytes page_data row_offset = some t)
    (hzero : u16LE page_data (row_offset + 94 + 2 * 17) = 0) :
    string_from_bytes page_data row_offset = some t.title := by
  simp only [Track.from_bytes] at h
  by_cases hb : row_offset + 136 ≤ page_data.length
  swap
  · rw [if_neg hb] at h
    exact absurd h (by simp)
  rw [if_pos hb] at h
  cases hd : decodeStrings page_data row_offset
      ((trackStringOffsets page_data row_offset).drop 1) with
  | none =>
    rw [hd] at h
    simp at h
  | some strs =>
    rw [hd] at h
    injection h with h'
    subst h'
    have hlen : ((trackStringOffsets page_data row_offset).drop 1).length = 20 := by
      unfold trackStringOffsets
      simp
    have hg := decodeStrings_getD page_data row_offset _ strs hd 16 (by rw [hlen]; omega)
    have hoff : ((trackStringOffsets page_data row_offset).drop 1).getD 16 0 =
        u16LE page_data (row_offset + 94 + 2 * 17) := by
      unfold trackStringOffsets
      rw [List.getD_eq_getElem?_getD, List.getElem?_drop, List.getElem?_map,
        List.getElem?_range (by omega)]
      rfl
    rw [hoff, hzero] at hg
    simpa using hg

set_option maxRecDepth 40000 in
/-- C9 counterexample: in `c9page` the title slot (slot 17) stores offset 0,
yet the decoded title is the one-character string `X` decoded at the row
start, not the empty string claimed. -/
theorem C9_counterexample :
    u16LE c9page (0 + 94 + 2 * 17) = 0 ∧
    (Track.from_bytes c9page 0).map Track.title = some c9str ∧
    c9str.payload ≠ [] := by
  decide

set_option maxRecDepth 40000 in
theorem C9_witness : string_from_bytes c9page 0 = some c9track.title :=
  C9_zero_offset_decodes_row_start c9page 0 c9track (by decide) (by decide)

/-- C10 counterexample: on `c10data` the section walk never terminates: the
section at offset 28 has `len_tag = 0`, so `offset_tagged_section += len_tag`
does not advance and `offset < len_file` stays true; for every fuel bound the
walk is still running (the claim asserts termination for every buffer). -/
theorem C10_counterexample : anlzWalkDiverges c10data := by
  unfold anlzWalkDiverges
  have hstep : ∀ f, anlzWalk c10data 40 (f + 1) 28 [] [] =
      anlzWalk c10data 40 f 28 [] [] := fun f => rfl
  have hloop : ∀ f, anlzWalk c10data 40 f 28 [] [] = none := by
    intro f
    induction f with
    | zero => rfl
    | succ n ih =>
      rw [hstep n]
      exact ih
  intro fuel
  unfold parse_anlz_file
  rw [if_pos (by decide), if_pos (by decide),
    show u32BE c10data 8 = 40 from by decide]
  exact hloop fuel

/-- C10 amended: the tagged-section walk stops once `section_start ≥
len_file` and each step advances to `section_start + len_tag`; it terminates
on every buffer in which each successfully read section header has
`len_tag ≥ 1` (a buffer with a zero `len_tag` loops forever, as the
counterexample shows). -/
theorem anlzWalk_succ (data : List Nat) (len_file fuel off : Nat)
    (beats : List Beat) (cues : List Cue) :
    anlzWalk data len_file (fuel + 1) off beats cues =
      if off < len_file then
        (readSectionHeader data off).elim (some AnlzResult.err) fun hdr =>
          if hdr.1 = pqtzMagic then
            (parsePQTZ data (off + 12)).elim (some AnlzResult.err) fun bs =>
              anlzWalk data len_file fuel (off + hdr.2.2) (beats ++ bs) cues
          else if hdr.1 = pcobMagic then
            anlzWalk data len_file fuel (off + hdr.2.2) beats cues
          else if hdr.1 = pco2Magic then
            (parsePCO2 data (off + 12)).elim (some AnlzResult.err) fun cs =>
              anlzWalk data len_file fuel (off + hdr.2.2) beats (cues ++ cs)
          else
            anlzWalk data len_file fuel (off + hdr.2.2) beats cues
      else some (AnlzResult.ok beats cues) := rfl

theorem C10_walk_terminates (data : List Nat) (len_file : Nat)
    (hpos : ∀ o m lh lt, readSectionHeader data o = some (m, lh, lt) → 1 ≤ lt) :
    ∀ fuel off beats cues, len_file ≤ off + fuel →
      (anlzWalk data len_file (fuel + 1) off beats cues).isSome = true := by
  intro fuel
  induction fuel with
  | zero =>
    intro off beats cues hle
    rw [anlzWalk_succ, if_neg (by omega)]
    rfl
  | succ n ih =>
    intro off beats cues hle
    rw [anlzWalk_succ]
    by_cases hstop : off < len_file
    case neg =>
      rw [if_neg hstop]
      rfl
    rw [if_pos hstop]
    cases hsec : readSectionHeader data off with
    | none => rfl
    | some hdr =>
      obtain ⟨m, lh, lt⟩ := hdr
      have hlt := hpos off m lh lt hsec
      simp only [Option.elim]
      by_cases h1 : m = pqtzMagic
      · rw [if_pos h1]
        cases parsePQTZ data (off + 12) with
        | none => rfl
        | some bs => exact ih (off + lt) (beats ++ bs) cues (by omega)
      · rw [if_neg h1]
        by_cases h2 : m = pcobMagic
        · rw [if_pos h2]
          exact ih (off + lt) beats cues (by omega)
        · rw [if_neg h2]
          by_cases h3 : m = pco2Magic
          · rw [if_pos h3]
            cases parsePCO2 data (off + 12) with
            | none => rfl
            | some cs => exact ih (off + lt) beats (cues ++ cs) (by omega)
          · rw [if_neg h3]
            exact ih (off + lt) beats cues (by omega)

theorem C10_witness : (anlzWalk [] 0 (0 + 1) 0 [] []).isSome = true :=
  C10_walk_terminates [] 0
    (fun o m lh lt h => by
      unfold readSectionHeader at h
      rw [List.length_nil, if_neg (by omega)] at h
      exact absurd h (by simp))
    0 0 [] [] (by decide)

end Traktorbox
